import Mathlib

/-!
Shallow embedding of `src/app.py`, a small NCBI BLAST lookup tool:
sequence validation (`clean_sequence`), job submission (`submit_blast`),
status polling (`wait_for_result`), result retrieval (`fetch_result`),
XML result reduction (`parse_top_hits`), and the orchestrating
`blast_lookup`, together with theorems settling the specification's
claims about them.

Python exceptions are embedded as `Except String` values carrying the
exception's message text (`str(e)`); network responses are supplied by an
explicit environment.  Python floats are modelled as exact rationals
(the claims only evaluate at exactly representable values).
-/

deriving instance DecidableEq for Except

namespace BlastApp

/-- ASCII/Latin-1 whitespace recognised by Python `str.strip` (exotic
Unicode space characters are not modelled). -/
def isPySpace (c : Char) : Bool :=
  c == ' ' || c == '\t' || c == '\n' || c == '\r' || c == '\x0b' || c == '\x0c' ||
  c == '\x1c' || c == '\x1d' || c == '\x1e' || c == '\x1f' || c == '\x85'

/-- Line-break characters recognised by Python `str.splitlines`. -/
def isLineBreak (c : Char) : Bool :=
  c == '\n' || c == '\r' || c == '\x0b' || c == '\x0c' ||
  c == '\x1c' || c == '\x1d' || c == '\x1e' || c == '\x85' ||
  c == '\u2028' || c == '\u2029'

/-- Python `str.strip()`: drop leading and trailing whitespace. -/
def pyStrip (l : List Char) : List Char :=
  ((l.dropWhile isPySpace).reverse.dropWhile isPySpace).reverse

/-- Python `str.splitlines()`; `acc` holds the current line reversed,
and `"\r\n"` counts as a single line break. -/
def splitlines : List Char → List Char → List (List Char)
  | [], acc => if acc.isEmpty then [] else [acc.reverse]
  | '\r' :: '\n' :: rest, acc => acc.reverse :: splitlines rest []
  | c :: rest, acc =>
    if isLineBreak c then acc.reverse :: splitlines rest []
    else splitlines rest (c :: acc)

/-- Python `line.startswith(">")`. -/
def startsWithGt : List Char → Bool
  | '>' :: _ => true
  | _ => false

/-- Python's substring test `pat in l`. -/
def infixOf (pat l : List Char) : Bool :=
  l.tails.any (fun t => pat.isPrefixOf t)

/-- Substring test on `String`s. -/
def hasSub (s pat : String) : Bool := infixOf pat.toList s.toList

/-- Deduplicate keeping first occurrences (deterministic stand-in for the
iteration order of a Python `set` of characters). -/
def dedupFirst : List Char → List Char → List Char
  | [], _ => []
  | c :: rest, seen =>
    if seen.contains c then dedupFirst rest seen
    else c :: dedupFirst rest (c :: seen)

/-- Python `", ".join(...)` over single characters. -/
def joinCommaSpace : List Char → List Char
  | [] => []
  | [c] => [c]
  | c :: rest => c :: ',' :: ' ' :: joinCommaSpace rest

/-- The IUPAC DNA alphabet accepted by `clean_sequence` (`app.py` line 33). -/
def valid_iupac_dna : List Char := "ACGTRYKMSWBDHVN".toList

/-- Message of the multiple-FASTA-headers rejection (`app.py` line 23). -/
def multipleSeqMsg : String :=
  "Multiple sequences detected. Please submit only one sequence at a time."

/-- Message of the invalid-characters rejection (`app.py` line 36). -/
def invalidCharsMsg (cs : List Char) : String :=
  "Invalid characters in sequence: " ++ String.mk (joinCommaSpace cs)

/-- The lines of the stripped input (`app.py` line 16). -/
def inputLines (seq : String) : List (List Char) :=
  splitlines (pyStrip seq.toList) []

/-- The concatenated, space-free, uppercased sequence data
(`app.py` lines 26-27). -/
def cleanedChars (seq : String) : List Char :=
  ((((inputLines seq).filter (fun l => !startsWithGt l)).map pyStrip).flatten.filter
    (fun c => c != ' ')).map Char.toUpper

/-- The distinct symbols of the cleaned sequence that fall outside the
IUPAC alphabet (`app.py` line 35). -/
def invalidChars (seq : String) : List Char :=
  dedupFirst ((cleanedChars seq).filter (fun c => !(valid_iupac_dna.contains c))) []

/-- `clean_sequence` from `app.py` lines 13-38. -/
def clean_sequence (seq : String) : Except String String :=
  let lines := inputLines seq
  if lines.isEmpty then .error "Input is empty"
  else if 1 < (lines.filter startsWithGt).length then .error multipleSeqMsg
  else
    let cleaned := cleanedChars seq
    if cleaned.isEmpty then .error "No sequence data found"
    else if (invalidChars seq).isEmpty then .ok (String.mk cleaned)
    else .error (invalidCharsMsg (invalidChars seq))

/-- Value of a nonempty all-digit character list. -/
def natDigits (l : List Char) : Option Nat :=
  if l.isEmpty then none
  else if l.all Char.isDigit then
    some (l.foldl (fun a c => a * 10 + (c.toNat - 48)) 0)
  else none

/-- Optional sign followed by digits, the shape accepted by Python `int`
(underscore digit separators are not modelled). -/
def parseSignedDigits : List Char → Option Int
  | '+' :: rest => (natDigits rest).map (fun n => (n : Int))
  | '-' :: rest => (natDigits rest).map (fun n => -(n : Int))
  | l => (natDigits l).map (fun n => (n : Int))

/-- Python `int(s)`: strip whitespace, parse an optionally signed decimal
numeral, raising `ValueError` otherwise. -/
def pyInt (s : String) : Except String Int :=
  match parseSignedDigits (pyStrip s.toList) with
  | some n => .ok n
  | none => .error ("invalid literal for int() with base 10: '" ++ s ++ "'")

/-- Split at the first exponent marker `e`/`E`, if any. -/
def splitAtExpChar (l : List Char) : List Char × Option (List Char) :=
  match l.span (fun c => !(c == 'e' || c == 'E')) with
  | (m, []) => (m, none)
  | (m, _ :: rest) => (m, some rest)

/-- Mantissa of a Python float literal: `digits`, `digits.digits`,
`digits.` or `.digits`.  The value is `v / 10 ^ scale` for the returned
pair `(v, scale)`. -/
def parseMant (l : List Char) : Option (Nat × Nat) :=
  match l.span Char.isDigit with
  | (intPart, []) => (natDigits intPart).map (fun n => (n, 0))
  | (intPart, '.' :: fracPart) =>
    if fracPart.all Char.isDigit && (!intPart.isEmpty || !fracPart.isEmpty) then
      let iv : Nat := intPart.foldl (fun a c => a * 10 + (c.toNat - 48)) 0
      let fv : Nat := fracPart.foldl (fun a c => a * 10 + (c.toNat - 48)) 0
      some (iv * 10 ^ fracPart.length + fv, fracPart.length)
    else none
  | _ => none

/-- A Python float literal as an exact rational (`inf`/`nan` and
underscore separators are not modelled).  Only `Rat.divInt` is used to
build the value, keeping it kernel-reducible. -/
def parseFloatQ (l : List Char) : Option ℚ :=
  let sgnRest : Int × List Char :=
    match l with
    | '+' :: r => (1, r)
    | '-' :: r => (-1, r)
    | _ => (1, l)
  let (mantPart, expPart) := splitAtExpChar sgnRest.2
  match parseMant mantPart, expPart with
  | some (v, scale), none => some (Rat.divInt (sgnRest.1 * v) ((10 : Int) ^ scale))
  | some (v, scale), some el =>
    (parseSignedDigits el).map (fun e =>
      if 0 ≤ e then Rat.divInt (sgnRest.1 * v * (10 : Int) ^ e.toNat) ((10 : Int) ^ scale)
      else Rat.divInt (sgnRest.1 * v) ((10 : Int) ^ (scale + (-e).toNat)))
  | none, _ => none

/-- Python `float(s)`, as an exact rational. -/
def pyFloat (s : String) : Except String ℚ :=
  match parseFloatQ (pyStrip s.toList) with
  | some q => .ok q
  | none => .error ("could not convert string to float: '" ++ s ++ "'")

/-- The integer nearest to `n / d` (`d` positive), ties to even: the
rounding mode of Python `round`. -/
def roundHalfEven (n : Int) (d : Nat) : Int :=
  let q := Int.fdiv n d
  let r := n - q * d
  if 2 * r < d then q
  else if (d : Int) < 2 * r then q + 1
  else if q % 2 = 0 then q else q + 1

/-- Python `round(q, 2)` on the exact rational value of the float. -/
def round2 (q : ℚ) : ℚ := Rat.divInt (roundHalfEven (q.num * 100) q.den) 100

/-- `submit_blast` from `app.py` lines 41-54, with the transport layer's
answer (`raise_for_status` outcome and body text) supplied as `resp`. -/
def submit_blast (resp : Except String String) : Except String String :=
  match resp with
  | .error m => .error m
  | .ok body =>
    match (splitlines body.toList []).find? (fun l => infixOf "RID =".toList l) with
    | some line => .ok (String.mk (pyStrip ((line.dropWhile (fun c => c != '=')).drop 1)))
    | none => .error "RID not found in BLAST response"

/-- The polling loop body of `wait_for_result` (`app.py` lines 58-68):
`st` gives the text of the `n`-th status response, the first argument is
the number of attempts left, `done` the number of polls already made. -/
def waitAux (st : Nat → String) : Nat → Nat → Except String Unit × Nat
  | 0, done => (.error "BLAST timed out", done)
  | n + 1, done =>
    if hasSub (st done) "Status=READY" then (.ok (), done + 1)
    else if hasSub (st done) "Status=FAILED" || hasSub (st done) "Status=UNKNOWN" then
      (.error "BLAST search failed or unknown", done + 1)
    else waitAux st n (done + 1)

/-- `wait_for_result` from `app.py` lines 57-69, returning the outcome
and the number of status polls performed.  `range(timeout // 5)` is
Python floor division, hence `Int.fdiv`; a negative quotient yields an
empty range. -/
def wait_for_result (st : Nat → String) (timeout : Int) : Except String Unit × Nat :=
  waitAux st (Int.toNat (Int.fdiv timeout 5)) 0

/-- `fetch_result` from `app.py` lines 72-79: the transport layer's
answer is returned as the raw body, errors propagate. -/
def fetch_result (resp : Except String String) : Except String String := resp

/-- The fields of the first `Hsp` sub-element of a hit that
`parse_top_hits` reads; `none` means the element is absent, `some t`
that its text is `t`. -/
structure Hsp where
  identity : Option String
  align_len : Option String
  evalue : Option String
deriving DecidableEq

/-- The fields of a `Hit` element that `parse_top_hits` reads; `hsp` is
its first `Hsp` descendant, if any. -/
structure Hit where
  hsp : Option Hsp
  hit_def : Option String
  accession : Option String
  len : Option String
deriving DecidableEq

/-- A well-formed BLAST result document, projected to the element paths
`parse_top_hits` reads: the first `BlastOutput_query-len` text and the
`Hit` elements in document order. -/
structure BlastXml where
  query_len : Option String
  hits : List Hit
deriving DecidableEq

/-- One entry of the reduced hit list (`app.py` lines 104-110). -/
structure HitSummary where
  accession : String
  length : Int
  evalue : ℚ
  identity_percent : ℚ
  description : String
deriving DecidableEq

/-- The reduced result (`app.py` lines 112-115). -/
structure ResultSet where
  query_len : Int
  top_hits : List HitSummary
deriving DecidableEq

/-- The description extraction of `app.py` lines 96-101: strip a leading
`"PREDICTED: "`, truncate at the first comma, trim whitespace. -/
def descriptionOf (d : String) : String :=
  let d1 :=
    if "PREDICTED: ".toList.isPrefixOf d.toList then String.mk (pyStrip (d.toList.drop 11))
    else d
  String.mk (pyStrip (d1.toList.takeWhile (fun c => c != ',')))

/-- The loop body of `parse_top_hits` for one hit with its `Hsp`
(`app.py` lines 92-110), in the evaluation order of the Python source:
`Hsp_identity`, `Hsp_align-len`, then the dict fields `Hit_len`,
`Hsp_evalue` and the identity percentage. -/
def summarize (hit : Hit) (hsp : Hsp) : Except String HitSummary := do
  let identity ← pyInt (hsp.identity.getD "0")
  let align_len ← pyInt (hsp.align_len.getD "1")
  let desc := descriptionOf (hit.hit_def.getD "")
  let hlen ← pyInt (hit.len.getD "0")
  let ev ← pyFloat (hsp.evalue.getD "1")
  let pct ←
    if align_len = 0 then (Except.error "division by zero" : Except String ℚ)
    else Except.ok (round2 (Rat.divInt (identity * 100) align_len))
  Except.ok
    { accession := hit.accession.getD "", length := hlen, evalue := ev,
      identity_percent := pct, description := desc }

/-- The hit loop of `parse_top_hits` (`app.py` lines 87-110): hits
without an `Hsp` are skipped, the first conversion error aborts. -/
def processHits : List Hit → Except String (List HitSummary)
  | [] => .ok []
  | hit :: rest =>
    match hit.hsp with
    | none => processHits rest
    | some hsp => do
      let s ← summarize hit hsp
      let tl ← processHits rest
      .ok (s :: tl)

/-- `parse_top_hits` on an already well-formed document (`app.py` lines
84-115): read `query_len`, truncate the hit list to the first 10, then
reduce each remaining hit. -/
def parse_doc (doc : BlastXml) : Except String ResultSet := do
  let ql ← pyInt (doc.query_len.getD "0")
  let hits ← processHits (doc.hits.take 10)
  .ok ⟨ql, hits⟩

/-- `parse_top_hits` from `app.py` lines 82-115: `ET.fromstring` (an
external XML parser, supplied by the environment) followed by the field
extraction of `parse_doc`. -/
def parse_top_hits (fromstring : String → Except String BlastXml)
    (xml_text : String) : Except String ResultSet := do
  let root ← fromstring xml_text
  parse_doc root

/-- The environment of one `blast_lookup` call: the transport-layer
outcome of the submission request, the successive status-poll response
texts, the transport-layer outcome of the retrieval request, and the
behaviour of the external XML parser. -/
structure Env where
  submit : Except String String
  statuses : Nat → String
  fetch : Except String String
  fromstring : String → Except String BlastXml

/-- One network round-trip performed by the pipeline. -/
inductive NetOp
  | submit
  | poll
  | fetch
deriving DecidableEq

/-- The uniform failure payload `{"error": msg}` of `app.py` line 128. -/
structure ErrorPayload where
  error : String
deriving DecidableEq

/-- The JSON-shaped outcome of `blast_lookup`: a full `ResultSet` or an
`ErrorPayload`. -/
inductive BlastOut
  | ok (rs : ResultSet)
  | err (e : ErrorPayload)
deriving DecidableEq

/-- `blast_lookup` from `app.py` lines 118-128, also recording the
network operations performed.  Each stage's failure is caught at this
boundary and converted to an `ErrorPayload` carrying its message. -/
def blast_lookup (env : Env) (seq : String) : BlastOut × List NetOp :=
  match clean_sequence seq with
  | .error m => (.err ⟨m⟩, [])
  | .ok sequence =>
    if 3000 < sequence.length then (.err ⟨"Sequence too long (max 3000 bp)"⟩, [])
    else
      match submit_blast env.submit with
      | .error m => (.err ⟨m⟩, [.submit])
      | .ok _rid =>
        match wait_for_result env.statuses 180 with
        | (.error m, polls) => (.err ⟨m⟩, .submit :: List.replicate polls .poll)
        | (.ok _, polls) =>
          match fetch_result env.fetch with
          | .error m => (.err ⟨m⟩, .submit :: List.replicate polls .poll ++ [.fetch])
          | .ok body =>
            match parse_top_hits env.fromstring body with
            | .error m => (.err ⟨m⟩, .submit :: List.replicate polls .poll ++ [.fetch])
            | .ok rs => (.ok rs, .submit :: List.replicate polls .poll ++ [.fetch])

/-- A status response that is neither ready nor terminal: the polling
loop sleeps and retries on it. -/
def isPending (s : String) : Bool :=
  !hasSub s "Status=READY" && !hasSub s "Status=FAILED" && !hasSub s "Status=UNKNOWN"

/-- An environment whose remote service returns empty successful bodies
and whose XML parser always fails; used to exercise the early stages. -/
def env0 : Env := ⟨.ok "", fun _ => "", .ok "", fun _ => .error "no parse"⟩

/-- A valid sequence of 3001 symbols, one over the length cap. -/
def seq3001 : String := String.mk (List.replicate 3001 'A')

/-- An `Hsp` with identity 5, alignment length 10 and e-value 0.5. -/
def hspA : Hsp := ⟨some "5", some "10", some "0.5"⟩

/-- A hit with alignment `hspA` and the given accession. -/
def hitWith (acc : String) : Hit := ⟨some hspA, some "desc", some acc, some "100"⟩

/-- A hit with no `Hsp` sub-record. -/
def hitNoHsp : Hit := ⟨none, some "x", some "nohsp", some "1"⟩

/-- A payload with 12 hits whose first two lack an `Hsp`. -/
def doc12 : BlastXml :=
  ⟨some "300",
    [hitNoHsp, hitNoHsp, hitWith "h3", hitWith "h4", hitWith "h5", hitWith "h6",
     hitWith "h7", hitWith "h8", hitWith "h9", hitWith "h10", hitWith "h11", hitWith "h12"]⟩

/-- Number of retained hits of a successfully reduced payload. -/
def topHitCount (doc : BlastXml) : Option Nat :=
  (parse_doc doc).toOption.map (fun rs => rs.top_hits.length)

/-- A payload with one skipped and one retained hit. -/
def docW : BlastXml := ⟨some "5", [hitNoHsp, hitWith "w2"]⟩

/-- The reduction of the single retained hit of `docW`. -/
def sumW : HitSummary := ⟨"w2", 100, Rat.divInt 1 2, 50, "desc"⟩

/-- The reduction of `docW`. -/
def rsW : ResultSet := ⟨5, [sumW]⟩

/-- A payload whose query-length field is present but non-numeric. -/
def docBadQL : BlastXml := ⟨some "abc", []⟩

/-- An `Hsp` lacking the identity-count field. -/
def hspNoId : Hsp := ⟨none, some "7", some "1"⟩

/-- A hit whose alignment lacks the identity-count field. -/
def hitND : Hit := ⟨some hspNoId, some "d", some "a", some "3"⟩

/-- The reduction of `hitND`. -/
def sumND : HitSummary := ⟨"a", 3, 1, 0, "d"⟩

/-! ### Sanity checks of the embedding on concrete values -/

example : clean_sequence " agtc " = .ok "AGTC" := by decide
example : clean_sequence "" = .error "Input is empty" := by decide
example : clean_sequence ">s1\nAG\n>s2\nCT" = .error multipleSeqMsg := by decide
example : clean_sequence ">s1\n  " = .error "No sequence data found" := by decide
example : clean_sequence "A C\nGT" = .ok "ACGT" := by decide
example : clean_sequence "AxGq" = .error "Invalid characters in sequence: X, Q" := by decide
example : pyInt " 42 " = .ok 42 := by decide
example : pyInt "abc" = .error "invalid literal for int() with base 10: 'abc'" := by decide
example : pyInt "" = .error "invalid literal for int() with base 10: ''" := by decide
example : pyInt "-7" = .ok (-7) := by decide
example : pyFloat "1" = .ok 1 := by decide
example : pyFloat "2.5e-2" = .ok (Rat.divInt 1 40) := by decide
example : pyFloat "xy" = .error "could not convert string to float: 'xy'" := by decide
example : round2 (Rat.divInt 247 99) = Rat.divInt 249 100 := by decide
example : round2 (Rat.divInt 1 200) = 0 := by decide
example : round2 (Rat.divInt 3 200) = Rat.divInt 1 50 := by decide
example : submit_blast (.ok "junk\nRID = ABC123 \nRTOE = 20") = .ok "ABC123" := by decide
example : submit_blast (.ok "no marker here") = .error "RID not found in BLAST response" := by
  decide
example : descriptionOf "PREDICTED: Homo sapiens gene X, transcript variant 1" =
    "Homo sapiens gene X" := by decide

example : parse_doc docW = .ok rsW := by decide
example : wait_for_result (fun _ => "Status=READY") 180 = (.ok (), 1) := by decide
example : blast_lookup env0 "??" = (.err ⟨"Invalid characters in sequence: ?"⟩, []) := by decide

/-! ### The polling loop -/

theorem waitAux_polls_le (st : Nat → String) : ∀ n d, (waitAux st n d).2 ≤ d + n := by
  intro n
  induction n with
  | zero => intro d; simp [waitAux]
  | succ m ih =>
    intro d
    simp only [waitAux]
    split
    · simp
    · split
      · simp
      · have := ih (d + 1); omega

theorem waitAux_ready (st : Nat → String) :
    ∀ n d k, k < n → (∀ j, j < k → isPending (st (d + j)) = true) →
      hasSub (st (d + k)) "Status=READY" = true →
      waitAux st n d = (.ok (), d + k + 1) := by
  intro n
  induction n with
  | zero => intro d k hk _ _; exact absurd hk (by omega)
  | succ m ih =>
    intro d k hk hpend hready
    cases k with
    | zero =>
      rw [Nat.add_zero] at hready
      simp [waitAux, hready]
    | succ k2 =>
      have hp0 := hpend 0 (Nat.succ_pos k2)
      rw [Nat.add_zero] at hp0
      simp only [isPending, Bool.and_eq_true, Bool.not_eq_true'] at hp0
      simp only [waitAux, hp0.1.1, hp0.1.2, hp0.2, Bool.or_self, if_false]
      have hrec := ih (d + 1) k2 (by omega)
        (fun j hj => by
          have e : d + 1 + j = d + (j + 1) := by omega
          rw [e]; exact hpend (j + 1) (by omega))
        (by
          have e : d + 1 + k2 = d + (k2 + 1) := by omega
          rw [e]; exact hready)
      rw [hrec]
      have e2 : d + 1 + k2 + 1 = d + (k2 + 1) + 1 := by omega
      rw [e2]
      simp

theorem waitAux_terminal (st : Nat → String) :
    ∀ n d k, k < n → (∀ j, j < k → isPending (st (d + j)) = true) →
      hasSub (st (d + k)) "Status=READY" = false →
      (hasSub (st (d + k)) "Status=FAILED" || hasSub (st (d + k)) "Status=UNKNOWN") = true →
      waitAux st n d = (.error "BLAST search failed or unknown", d + k + 1) := by
  intro n
  induction n with
  | zero => intro d k hk _ _ _; exact absurd hk (by omega)
  | succ m ih =>
    intro d k hk hpend hready hterm
    cases k with
    | zero =>
      rw [Nat.add_zero] at hready hterm
      simp [waitAux, hready, hterm]
    | succ k2 =>
      have hp0 := hpend 0 (Nat.succ_pos k2)
      rw [Nat.add_zero] at hp0
      simp only [isPending, Bool.and_eq_true, Bool.not_eq_true'] at hp0
      simp only [waitAux, hp0.1.1, hp0.1.2, hp0.2, Bool.or_self, if_false]
      have hrec := ih (d + 1) k2 (by omega)
        (fun j hj => by
          have e : d + 1 + j = d + (j + 1) := by omega
          rw [e]; exact hpend (j + 1) (by omega))
        (by
          have e : d + 1 + k2 = d + (k2 + 1) := by omega
          rw [e]; exact hready)
        (by
          have e : d + 1 + k2 = d + (k2 + 1) := by omega
          rw [e]; exact hterm)
      rw [hrec]
      have e2 : d + 1 + k2 + 1 = d + (k2 + 1) + 1 := by omega
      rw [e2]
      simp

theorem waitAux_timeout (st : Nat → String) :
    ∀ n d, (∀ j, j < n → isPending (st (d + j)) = true) →
      waitAux st n d = (.error "BLAST timed out", d + n) := by
  intro n
  induction n with
  | zero => intro d _; simp [waitAux]
  | succ m ih =>
    intro d hpend
    have hp0 := hpend 0 (Nat.succ_pos m)
    rw [Nat.add_zero] at hp0
    simp only [isPending, Bool.and_eq_true, Bool.not_eq_true'] at hp0
    simp only [waitAux, hp0.1.1, hp0.1.2, hp0.2, Bool.or_self, if_false]
    have hrec := ih (d + 1)
      (fun j hj => by
        have e : d + 1 + j = d + (j + 1) := by omega
        rw [e]; exact hpend (j + 1) (by omega))
    rw [hrec]
    have e2 : d + 1 + m = d + (m + 1) := by omega
    rw [e2]
    simp

/-- Claim C7: `wait_for_result` performs at most `floor(timeout/5)` status
polls; it returns normally after exactly `k+1` polls when the first `k`
responses are pending and the `(k+1)`-th is the first containing
`Status=READY`; and it raises `TimeoutError("BLAST timed out")` after
exactly `floor(timeout/5)` polls when every scheduled response is
pending. -/
theorem wait_for_result_poll_budget (st : Nat → String) (timeout : Int) :
    ((wait_for_result st timeout).2 ≤ (Int.fdiv timeout 5).toNat)
    ∧ (∀ k, k < (Int.fdiv timeout 5).toNat →
        (∀ j, j < k → isPending (st j) = true) →
        hasSub (st k) "Status=READY" = true →
        wait_for_result st timeout = (.ok (), k + 1))
    ∧ ((∀ j, j < (Int.fdiv timeout 5).toNat → isPending (st j) = true) →
        wait_for_result st timeout =
          (.error "BLAST timed out", (Int.fdiv timeout 5).toNat)) := by
  refine ⟨?_, ?_, ?_⟩
  · have h := waitAux_polls_le st ((Int.fdiv timeout 5).toNat) 0
    simpa [wait_for_result] using h
  · intro k hk hpend hready
    have h := waitAux_ready st ((Int.fdiv timeout 5).toNat) 0 k hk
      (by simpa using hpend) (by simpa using hready)
    simpa [wait_for_result] using h
  · intro hpend
    have h := waitAux_timeout st ((Int.fdiv timeout 5).toNat) 0 (by simpa using hpend)
    simpa [wait_for_result] using h

theorem wait_for_result_poll_budget_witness :
    (wait_for_result (fun n => if n = 2 then "Status=READY" else "Status=WAITING") 180).2 ≤
        (Int.fdiv 180 5).toNat ∧
      wait_for_result (fun n => if n = 2 then "Status=READY" else "Status=WAITING") 180 =
        (.ok (), 3) :=
  ⟨(wait_for_result_poll_budget (fun n => if n = 2 then "Status=READY" else "Status=WAITING")
      180).1,
    (wait_for_result_poll_budget (fun n => if n = 2 then "Status=READY" else "Status=WAITING")
      180).2.1 2 (by decide) (by decide) (by decide)⟩

/-- Claim C8: as soon as a polled response contains `Status=FAILED` or
`Status=UNKNOWN` (and not `Status=READY`), `wait_for_result` raises
`RuntimeError("BLAST search failed or unknown")` after exactly `k+1`
polls, without exhausting the attempt budget. -/
theorem wait_for_result_terminal_status (st : Nat → String) (timeout : Int) (k : Nat)
    (hk : k < (Int.fdiv timeout 5).toNat)
    (hpend : ∀ j, j < k → isPending (st j) = true)
    (hready : hasSub (st k) "Status=READY" = false)
    (hterm : (hasSub (st k) "Status=FAILED" || hasSub (st k) "Status=UNKNOWN") = true) :
    wait_for_result st timeout = (.error "BLAST search failed or unknown", k + 1) := by
  have h := waitAux_terminal st ((Int.fdiv timeout 5).toNat) 0 k hk
    (by simpa using hpend) (by simpa using hready) (by simpa using hterm)
  simpa [wait_for_result] using h

theorem wait_for_result_terminal_status_witness :
    wait_for_result (fun _ => "Status=FAILED") 180 =
      (.error "BLAST search failed or unknown", 1) :=
  wait_for_result_terminal_status (fun _ => "Status=FAILED") 180 0 (by decide)
    (by decide) (by decide) (by decide)

/-- Claim C9: with a timeout budget strictly below 5 seconds (including
0 and negative budgets), `floor(timeout/5)` is at most 0, so
`wait_for_result` performs zero polls and raises
`TimeoutError("BLAST timed out")` immediately. -/
theorem wait_for_result_zero_budget (st : Nat → String) (timeout : Int)
    (h : timeout < 5) :
    wait_for_result st timeout = (.error "BLAST timed out", 0) := by
  have hz : (Int.fdiv timeout 5).toNat = 0 := by
    rw [Int.fdiv_eq_ediv _ (by norm_num)]
    omega
  simp [wait_for_result, hz, waitAux]

theorem wait_for_result_zero_budget_witness :
    wait_for_result (fun _ => "Status=READY") 4 = (.error "BLAST timed out", 0) :=
  wait_for_result_zero_budget (fun _ => "Status=READY") 4 (by decide)

/-! ### The sequence normalizer -/

theorem dedupFirst_mem (c : Char) : ∀ (l seen : List Char),
    c ∈ dedupFirst l seen ↔ c ∈ l ∧ c ∉ seen := by
  intro l
  induction l with
  | nil => intro seen; simp [dedupFirst]
  | cons a rest ih =>
    intro seen
    simp only [dedupFirst]
    split
    · rename_i ha
      have ha2 : a ∈ seen := by simpa using ha
      rw [ih]
      simp only [List.mem_cons]
      constructor
      · rintro ⟨h1, h2⟩; exact ⟨Or.inr h1, h2⟩
      · rintro ⟨h1 | h1, h2⟩
        · exact absurd (h1 ▸ ha2) h2
        · exact ⟨h1, h2⟩
    · rename_i ha
      have ha2 : a ∉ seen := by simpa using ha
      simp only [List.mem_cons, ih, List.mem_cons]
      constructor
      · rintro (rfl | ⟨h1, h2⟩)
        · exact ⟨Or.inl rfl, ha2⟩
        · refine ⟨Or.inr h1, fun hc => h2 (Or.inr hc)⟩
      · rintro ⟨h1 | h1, h2⟩
        · exact Or.inl h1
        · by_cases hca : c = a
          · exact Or.inl hca
          · exact Or.inr ⟨h1, fun hc => by
              rcases hc with hc | hc
              · exact hca hc
              · exact h2 hc⟩

theorem dedupFirst_nodup : ∀ (l seen : List Char), (dedupFirst l seen).Nodup := by
  intro l
  induction l with
  | nil => intro seen; simp [dedupFirst]
  | cons a rest ih =>
    intro seen
    simp only [dedupFirst]
    split
    · exact ih seen
    · refine List.nodup_cons.2 ⟨?_, ih (a :: seen)⟩
      rw [dedupFirst_mem]
      simp

/-- Claim C4 counterexample: an input with two descriptor lines and
invalid data symbols `X`, `Z` is rejected with the multiple-sequences
message, not with an invalid-characters message listing `{X, Z}`: the
descriptor check takes precedence. -/
theorem clean_sequence_multiheader_cex :
    clean_sequence ">a\nXZ\n>b" = .error multipleSeqMsg ∧
    clean_sequence ">a\nXZ\n>b" ≠ .error (invalidCharsMsg ['X', 'Z']) ∧
    clean_sequence ">a\nXZ\n>b" ≠ .error (invalidCharsMsg ['Z', 'X']) :=
  ⟨by decide, by decide, by decide⟩

/-- Claim C4 (amended): for every input with at most one descriptor line
whose cleaned data (after per-line trimming, space removal and
uppercasing) contains a symbol outside the 15-symbol IUPAC alphabet,
`clean_sequence` fails listing exactly the set of offending symbols,
without duplicates. -/
theorem clean_sequence_invalid_chars (seq : String)
    (hhead : ((inputLines seq).filter startsWithGt).length ≤ 1)
    (hbad : invalidChars seq ≠ []) :
    clean_sequence seq = .error (invalidCharsMsg (invalidChars seq)) ∧
    (invalidChars seq).Nodup ∧
    (∀ c, c ∈ invalidChars seq ↔ c ∈ cleanedChars seq ∧ c ∉ valid_iupac_dna) := by
  have hmem : ∀ c, c ∈ invalidChars seq ↔ c ∈ cleanedChars seq ∧ c ∉ valid_iupac_dna := by
    intro c
    unfold invalidChars
    rw [dedupFirst_mem]
    simp [List.mem_filter]
  have hclean : cleanedChars seq ≠ [] := by
    intro h
    apply hbad
    unfold invalidChars
    rw [h]
    rfl
  have hlines : inputLines seq ≠ [] := by
    intro h
    apply hclean
    unfold cleanedChars
    rw [h]
    rfl
  have h1 : (inputLines seq).isEmpty = false := by simpa [List.isEmpty_iff] using hlines
  have h2 : ¬(1 < ((inputLines seq).filter startsWithGt).length) := by omega
  have h3 : (cleanedChars seq).isEmpty = false := by simpa [List.isEmpty_iff] using hclean
  have h4 : (invalidChars seq).isEmpty = false := by simpa [List.isEmpty_iff] using hbad
  refine ⟨?_, dedupFirst_nodup _ _, hmem⟩
  simp [clean_sequence, h1, h2, h3, h4]

theorem clean_sequence_invalid_chars_witness :
    clean_sequence "AxGq" = .error (invalidCharsMsg (invalidChars "AxGq")) :=
  (clean_sequence_invalid_chars "AxGq" (by decide) (by decide)).1

/-- Claim C5 counterexample: an interior tab between valid symbols is
not stripped; it survives cleaning and the input is rejected as having
an invalid character (the tab), not accepted as `"ACGT"`. -/
theorem clean_sequence_tab_cex :
    clean_sequence "AC\tGT" = .error (invalidCharsMsg ['\t']) ∧
    clean_sequence "AC\tGT" ≠ .ok "ACGT" :=
  ⟨by decide, by decide⟩

/-- Claim C5 (amended): every accepted input yields exactly the
concatenation of its trimmed non-descriptor lines with interior spaces
(only) removed and symbols uppercased, all symbols lying in the IUPAC
alphabet; interior spaces are accepted, interior tabs are rejected as
invalid characters. -/
theorem clean_sequence_spaces_only :
    (∀ seq out, clean_sequence seq = .ok out →
      out.toList = cleanedChars seq ∧ ∀ c, c ∈ out.toList → c ∈ valid_iupac_dna) ∧
    clean_sequence "AG TC" = .ok "AGTC" ∧
    clean_sequence "AG\tTC" = .error (invalidCharsMsg ['\t']) := by
  refine ⟨?_, by decide, by decide⟩
  intro seq out h
  simp only [clean_sequence] at h
  split at h
  · simp at h
  · split at h
    · simp at h
    · split at h
      · simp at h
      · split at h
        · rename_i hinv
          rw [List.isEmpty_iff] at hinv
          injection h with h'
          subst h'
          refine ⟨rfl, ?_⟩
          intro c hc
          by_contra hcv
          have hcmem : c ∈ invalidChars seq := by
            unfold invalidChars
            rw [dedupFirst_mem]
            refine ⟨List.mem_filter.2 ⟨hc, by simpa using hcv⟩, by simp⟩
          rw [hinv] at hcmem
          simp at hcmem
        · simp at h

theorem clean_sequence_spaces_only_witness :
    "AGTC".toList = cleanedChars " agtc " :=
  (clean_sequence_spaces_only.1 " agtc " "AGTC" (by decide)).1

/-! ### The result reducer -/

theorem summarize_ok_inv {hit : Hit} {hsp : Hsp} {s : HitSummary}
    (h : summarize hit hsp = .ok s) :
    ∃ idv alv hlv evv,
      pyInt (hsp.identity.getD "0") = .ok idv ∧
      pyInt (hsp.align_len.getD "1") = .ok alv ∧
      pyInt (hit.len.getD "0") = .ok hlv ∧
      pyFloat (hsp.evalue.getD "1") = .ok evv ∧
      alv ≠ 0 ∧
      s = { accession := hit.accession.getD "", length := hlv, evalue := evv,
            identity_percent := round2 (Rat.divInt (idv * 100) alv),
            description := descriptionOf (hit.hit_def.getD "") } := by
  simp only [summarize, bind, Except.bind] at h
  cases h1 : pyInt (hsp.identity.getD "0") <;> rw [h1] at h
  · simp at h
  · cases h2 : pyInt (hsp.align_len.getD "1") <;> rw [h2] at h
    · simp at h
    · cases h3 : pyInt (hit.len.getD "0") <;> rw [h3] at h
      · simp at h
      · cases h4 : pyFloat (hsp.evalue.getD "1") <;> rw [h4] at h
        · simp at h
        · rename_i idv alv hlv evv
          dsimp only [] at h
          by_cases halv : alv = 0
          · rw [if_pos halv] at h
            simp at h
          · rw [if_neg halv] at h
            simp only [Except.ok.injEq] at h
            exact ⟨idv, alv, hlv, evv, rfl, rfl, rfl, rfl, halv, h.symm⟩

theorem processHits_ok_acc : ∀ (hits : List Hit) (summs : List HitSummary),
    processHits hits = .ok summs →
    summs.map (fun s => s.accession) =
      (hits.filter (fun h2 => h2.hsp.isSome)).map (fun h2 => h2.accession.getD "") := by
  intro hits
  induction hits with
  | nil =>
    intro summs h
    simp only [processHits, Except.ok.injEq] at h
    subst h
    simp
  | cons hit rest ih =>
    intro summs h
    simp only [processHits] at h
    cases hh : hit.hsp with
    | none =>
      rw [hh] at h
      simp only [List.filter_cons, hh, Option.isSome_none, Bool.false_eq_true, if_false]
      exact ih summs h
    | some hsp =>
      rw [hh] at h
      simp only [bind, Except.bind] at h
      cases h1 : summarize hit hsp <;> rw [h1] at h
      · simp at h
      · cases h2 : processHits rest <;> rw [h2] at h
        · simp at h
        · rename_i s tl
          simp only [Except.ok.injEq] at h
          subst h
          obtain ⟨_, _, _, _, _, _, _, _, _, rfl⟩ := summarize_ok_inv h1
          simp only [List.filter_cons, hh, Option.isSome_some, if_true, List.map_cons]
          exact congrArg _ (ih tl h2)

theorem processHits_ok_mem : ∀ (hits : List Hit) (summs : List HitSummary),
    processHits hits = .ok summs → ∀ s ∈ summs,
    ∃ hit ∈ hits, ∃ hsp, hit.hsp = some hsp ∧ summarize hit hsp = .ok s := by
  intro hits
  induction hits with
  | nil =>
    intro summs h s hs
    simp only [processHits, Except.ok.injEq] at h
    subst h
    simp at hs
  | cons hit rest ih =>
    intro summs h s hs
    simp only [processHits] at h
    cases hh : hit.hsp with
    | none =>
      rw [hh] at h
      obtain ⟨hit2, hmem, hsp2, hh2, hsum⟩ := ih summs h s hs
      exact ⟨hit2, List.mem_cons_of_mem _ hmem, hsp2, hh2, hsum⟩
    | some hsp =>
      rw [hh] at h
      simp only [bind, Except.bind] at h
      cases h1 : summarize hit hsp <;> rw [h1] at h
      · simp at h
      · cases h2 : processHits rest <;> rw [h2] at h
        · simp at h
        · rename_i s0 tl
          simp only [Except.ok.injEq] at h
          subst h
          rcases List.mem_cons.1 hs with rfl | hs2
          · exact ⟨hit, List.mem_cons_self _ _, hsp, hh, h1⟩
          · obtain ⟨hit2, hmem, hsp2, hh2, hsum⟩ := ih tl h2 s hs2
            exact ⟨hit2, List.mem_cons_of_mem _ hmem, hsp2, hh2, hsum⟩

theorem parse_doc_ok_inv {doc : BlastXml} {rs : ResultSet}
    (h : parse_doc doc = .ok rs) :
    ∃ ql, pyInt (doc.query_len.getD "0") = .ok ql ∧
      processHits (doc.hits.take 10) = .ok rs.top_hits ∧ rs.query_len = ql := by
  simp only [parse_doc, bind, Except.bind] at h
  cases h1 : pyInt (doc.query_len.getD "0") <;> rw [h1] at h
  · simp at h
  · cases h2 : processHits (doc.hits.take 10) <;> rw [h2] at h
    · simp at h
    · simp only [Except.ok.injEq] at h
      subst h
      exact ⟨_, rfl, rfl, rfl⟩

/-- Claim C2 counterexample: a payload with 12 hits, the first two
lacking an `Hsp`, reduces to 8 retained hits, not 10: the 10-hit cap is
applied before skipping, so skipped hits consume cap slots and hits 11
and 12 are never drawn from. -/
theorem parse_doc_cap_cex :
    topHitCount doc12 = some 8 ∧ topHitCount doc12 ≠ some 10 :=
  ⟨by decide, by decide⟩

/-- Claim C2 (amended): for every well-formed payload, `parse_top_hits`
first truncates the hit list to the first 10 records in document order
and only then drops those lacking an `Hsp`: the retained summaries
correspond exactly, in order, to the `Hsp`-bearing hits among the first
10, so a skipped hit still consumes a cap slot. -/
theorem parse_doc_cap_before_skip (doc : BlastXml) (rs : ResultSet)
    (h : parse_doc doc = .ok rs) :
    rs.top_hits.map (fun s => s.accession) =
      ((doc.hits.take 10).filter (fun h2 => h2.hsp.isSome)).map
        (fun h2 => h2.accession.getD "") ∧
    rs.top_hits.length =
      ((doc.hits.take 10).filter (fun h2 => h2.hsp.isSome)).length := by
  obtain ⟨ql, h1, h2, h3⟩ := parse_doc_ok_inv h
  have hmap := processHits_ok_acc _ _ h2
  refine ⟨hmap, ?_⟩
  have := congrArg List.length hmap
  simpa using this

theorem parse_doc_cap_before_skip_witness :
    rsW.top_hits.map (fun s => s.accession) =
      ((docW.hits.take 10).filter (fun h2 => h2.hsp.isSome)).map
        (fun h2 => h2.accession.getD "") :=
  (parse_doc_cap_before_skip docW rsW (by decide)).1

/-- Claim C3 counterexample: a payload whose query-length field is
present but non-numeric makes `parse_top_hits` fail with the `int()`
conversion error instead of defaulting `query_len` to 0 and returning a
`ResultSet`. -/
theorem parse_doc_nonnumeric_cex :
    parse_doc docBadQL = .error "invalid literal for int() with base 10: 'abc'" ∧
    (parse_doc docBadQL).toOption = none :=
  ⟨by decide, by decide⟩

/-- Claim C3 (amended): the defaults 0 (query length), 0 (hit length)
and 1.0 (e-value) apply only when the field is absent — an absent field
behaves exactly like the corresponding default text — while a
present-but-non-numeric field makes the conversion raise, so the reduce
step fails with that error instead of returning a `ResultSet`. -/
theorem parse_defaults_absent_only :
    (∀ doc : BlastXml, doc.query_len = none →
      parse_doc doc = parse_doc { doc with query_len := some "0" })
    ∧ (∀ (doc : BlastXml) (s m : String), doc.query_len = some s → pyInt s = .error m →
      parse_doc doc = .error m)
    ∧ (∀ (hit : Hit) (hsp : Hsp), hit.len = none →
      summarize hit hsp = summarize { hit with len := some "0" } hsp)
    ∧ (∀ (hit : Hit) (hsp : Hsp), hsp.evalue = none →
      summarize hit hsp = summarize hit { hsp with evalue := some "1" })
    ∧ (∀ (hit : Hit) (hsp : Hsp) (s m : String) (idv alv : Int),
      pyInt (hsp.identity.getD "0") = .ok idv →
      pyInt (hsp.align_len.getD "1") = .ok alv →
      hit.len = some s → pyInt s = .error m → summarize hit hsp = .error m)
    ∧ (∀ (hit : Hit) (hsp : Hsp) (s m : String) (idv alv hlv : Int),
      pyInt (hsp.identity.getD "0") = .ok idv →
      pyInt (hsp.align_len.getD "1") = .ok alv →
      pyInt (hit.len.getD "0") = .ok hlv →
      hsp.evalue = some s → pyFloat s = .error m → summarize hit hsp = .error m) := by
  refine ⟨?_, ?_, ?_, ?_, ?_, ?_⟩
  · intro doc hq
    simp [parse_doc, hq]
  · intro doc s m hq hm
    simp [parse_doc, hq, hm, bind, Except.bind]
  · intro hit hsp hl
    simp [summarize, hl]
  · intro hit hsp he
    simp [summarize, he]
  · intro hit hsp s m idv alv h1 h2 hl hm
    simp [summarize, h1, h2, hl, hm, bind, Except.bind]
  · intro hit hsp s m idv alv hlv h1 h2 h3 he hm
    simp [summarize, h1, h2, h3, he, hm, bind, Except.bind]

theorem parse_defaults_absent_only_witness :
    parse_doc ⟨none, []⟩ = parse_doc ⟨some "0", []⟩ :=
  parse_defaults_absent_only.1 ⟨none, []⟩ rfl

/-- Claim C10: a retained hit whose alignment record lacks the
identity-count field gets identity 0 (the default text `"0"`), so its
identity percentage is exactly 0 whatever the alignment length; and
every retained hit of a reduced payload does come from `summarize` on an
`Hsp`-bearing hit among the first 10. -/
theorem identity_absent_zero_percent :
    (∀ (hit : Hit) (hsp : Hsp) (s : HitSummary), hsp.identity = none →
      summarize hit hsp = .ok s → s.identity_percent = 0)
    ∧ (∀ (doc : BlastXml) (rs : ResultSet) (s : HitSummary),
      parse_doc doc = .ok rs → s ∈ rs.top_hits →
      ∃ hit ∈ doc.hits.take 10, ∃ hsp, hit.hsp = some hsp ∧ summarize hit hsp = .ok s) := by
  constructor
  · intro hit hsp s hid h
    obtain ⟨idv, alv, hlv, evv, h1, h2, h3, h4, halv, rfl⟩ := summarize_ok_inv h
    rw [hid] at h1
    simp only [Option.getD] at h1
    have h0 : pyInt "0" = .ok 0 := by decide
    rw [h0] at h1
    simp only [Except.ok.injEq] at h1
    subst h1
    show round2 (Rat.divInt (0 * 100) alv) = 0
    rw [show ((0 : Int) * 100) = 0 by ring, Rat.zero_divInt]
    decide
  · intro doc rs s h hs
    obtain ⟨ql, h1, h2, h3⟩ := parse_doc_ok_inv h
    exact processHits_ok_mem _ _ h2 s hs

theorem identity_absent_zero_percent_witness :
    sumND.identity_percent = 0 :=
  identity_absent_zero_percent.1 hitND hspNoId sumND rfl (by decide)

/-! ### The orchestrator -/

/-- Claim C6: a valid input whose normalized sequence exceeds 3000
symbols makes `blast_lookup` return the too-long `ErrorPayload` with an
empty network trace: submission, polling and retrieval are never
invoked. -/
theorem blast_lookup_too_long (env : Env) (seq : String) (cs : String)
    (hclean : clean_sequence seq = .ok cs) (hlen : 3000 < cs.length) :
    blast_lookup env seq = (.err ⟨"Sequence too long (max 3000 bp)"⟩, []) := by
  unfold blast_lookup
  rw [hclean]
  simp [hlen]

theorem dropWhile_pySpace_repA (n : Nat) :
    List.dropWhile isPySpace (List.replicate n 'A') = List.replicate n 'A' := by
  cases n with
  | zero => rfl
  | succ k =>
    rw [List.replicate_succ, List.dropWhile_cons]
    simp [show isPySpace 'A' = false from rfl]

theorem pyStrip_repA (n : Nat) :
    pyStrip (List.replicate n 'A') = List.replicate n 'A' := by
  unfold pyStrip
  rw [dropWhile_pySpace_repA, List.reverse_replicate, dropWhile_pySpace_repA,
    List.reverse_replicate]

theorem splitlines_nil (acc : List Char) :
    splitlines [] acc = if acc.isEmpty then [] else [acc.reverse] := rfl

theorem splitlines_consA (rest acc : List Char) :
    splitlines ('A' :: rest) acc = splitlines rest ('A' :: acc) := rfl

theorem splitlines_repA : ∀ (n : Nat) (acc : List Char),
    splitlines (List.replicate (n + 1) 'A') acc =
      [acc.reverse ++ List.replicate (n + 1) 'A'] := by
  intro n
  induction n with
  | zero =>
    intro acc
    simp only [List.replicate_succ, List.replicate_zero]
    rw [splitlines_consA, splitlines_nil]
    simp
  | succ k ih =>
    intro acc
    rw [List.replicate_succ, splitlines_consA, ih ('A' :: acc)]
    simp [List.replicate_succ]

theorem inputLines_seq3001 : inputLines seq3001 = [List.replicate 3001 'A'] := by
  unfold inputLines seq3001
  rw [show (String.mk (List.replicate 3001 'A')).toList = List.replicate 3001 'A' from rfl,
    pyStrip_repA, show (3001 : Nat) = 3000 + 1 from rfl, splitlines_repA]
  rw [List.reverse_nil, List.nil_append]

theorem startsWithGt_repA : startsWithGt (List.replicate 3001 'A') = false := by
  rw [show (3001 : Nat) = 3000 + 1 from rfl, List.replicate_succ]
  rfl

theorem filter_space_repA : ∀ n : Nat,
    (List.replicate n 'A').filter (fun c => c != ' ') = List.replicate n 'A' := by
  intro n
  induction n with
  | zero => rfl
  | succ k ih =>
    rw [List.replicate_succ, List.filter_cons, if_pos (by decide), ih]

theorem filter_invalid_repA : ∀ n : Nat,
    (List.replicate n 'A').filter (fun c => !(valid_iupac_dna.contains c)) = [] := by
  intro n
  induction n with
  | zero => rfl
  | succ k ih =>
    rw [List.replicate_succ, List.filter_cons, if_neg (by decide), ih]

theorem cleanedChars_seq3001 : cleanedChars seq3001 = List.replicate 3001 'A' := by
  unfold cleanedChars
  rw [inputLines_seq3001]
  simp only [List.filter_cons, startsWithGt_repA, Bool.not_false, if_true, List.filter_nil,
    List.map_cons, List.map_nil, pyStrip_repA, List.flatten_cons, List.flatten_nil,
    List.append_nil]
  rw [filter_space_repA, List.map_replicate]
  rfl

theorem invalidChars_seq3001 : invalidChars seq3001 = [] := by
  unfold invalidChars
  rw [cleanedChars_seq3001, filter_invalid_repA]
  rfl

theorem clean_sequence_seq3001 : clean_sequence seq3001 = .ok seq3001 := by
  have h1 : (inputLines seq3001).isEmpty = false := by rw [inputLines_seq3001]; rfl
  have h2 : ((inputLines seq3001).filter startsWithGt).length = 0 := by
    rw [inputLines_seq3001, List.filter_cons,
      if_neg (by rw [startsWithGt_repA]; exact Bool.false_ne_true)]
    rfl
  have h3 : (cleanedChars seq3001).isEmpty = false := by
    rw [cleanedChars_seq3001, show (3001 : Nat) = 3000 + 1 from rfl, List.replicate_succ]
    rfl
  have h4 : (invalidChars seq3001).isEmpty = true := by rw [invalidChars_seq3001]; rfl
  simp only [clean_sequence]
  rw [if_neg (by rw [h1]; exact Bool.false_ne_true)]
  rw [if_neg (by rw [h2]; omega)]
  rw [if_neg (by rw [h3]; exact Bool.false_ne_true)]
  rw [if_pos (by rw [h4])]
  rw [cleanedChars_seq3001]
  rfl

theorem seq3001_length_gt : 3000 < seq3001.length := by
  have h : seq3001.length = 3001 := by
    rw [show seq3001.length = (List.replicate 3001 'A').length from rfl,
      List.length_replicate]
  omega

theorem blast_lookup_too_long_witness :
    blast_lookup env0 seq3001 = (.err ⟨"Sequence too long (max 3000 bp)"⟩, []) :=
  blast_lookup_too_long env0 seq3001 seq3001 clean_sequence_seq3001 seq3001_length_gt

/-- Claim C1: `blast_lookup` always returns either a full `ResultSet` or
an `ErrorPayload`, never a mix; every stage failure — validation,
transport at submission, polling (remote-job or timeout), transport at
retrieval, or parsing — is caught at this single boundary and converted
to the `ErrorPayload` carrying that failure's message text; and a
`ResultSet` is produced only when every stage succeeded. -/
theorem blast_lookup_error_boundary (env : Env) (seq : String) :
    ((∃ rs, (blast_lookup env seq).1 = .ok rs) ∨ (∃ m, (blast_lookup env seq).1 = .err ⟨m⟩))
    ∧ (∀ m, clean_sequence seq = .error m → blast_lookup env seq = (.err ⟨m⟩, []))
    ∧ (∀ cs m, clean_sequence seq = .ok cs → cs.length ≤ 3000 →
      submit_blast env.submit = .error m →
      blast_lookup env seq = (.err ⟨m⟩, [.submit]))
    ∧ (∀ cs rid m p, clean_sequence seq = .ok cs → cs.length ≤ 3000 →
      submit_blast env.submit = .ok rid →
      wait_for_result env.statuses 180 = (.error m, p) →
      blast_lookup env seq = (.err ⟨m⟩, .submit :: List.replicate p NetOp.poll))
    ∧ (∀ cs rid p m, clean_sequence seq = .ok cs → cs.length ≤ 3000 →
      submit_blast env.submit = .ok rid →
      wait_for_result env.statuses 180 = (.ok (), p) →
      fetch_result env.fetch = .error m →
      blast_lookup env seq =
        (.err ⟨m⟩, .submit :: List.replicate p NetOp.poll ++ [NetOp.fetch]))
    ∧ (∀ cs rid p body m, clean_sequence seq = .ok cs → cs.length ≤ 3000 →
      submit_blast env.submit = .ok rid →
      wait_for_result env.statuses 180 = (.ok (), p) →
      fetch_result env.fetch = .ok body →
      parse_top_hits env.fromstring body = .error m →
      blast_lookup env seq =
        (.err ⟨m⟩, .submit :: List.replicate p NetOp.poll ++ [NetOp.fetch]))
    ∧ (∀ rs, (blast_lookup env seq).1 = .ok rs →
      ∃ cs rid p body, clean_sequence seq = .ok cs ∧ cs.length ≤ 3000 ∧
        submit_blast env.submit = .ok rid ∧
        wait_for_result env.statuses 180 = (.ok (), p) ∧
        fetch_result env.fetch = .ok body ∧
        parse_top_hits env.fromstring body = .ok rs) := by
  refine ⟨?_, ?_, ?_, ?_, ?_, ?_, ?_⟩
  · cases hb : (blast_lookup env seq).1 with
    | ok rs => exact Or.inl ⟨rs, rfl⟩
    | err e => exact Or.inr ⟨e.error, rfl⟩
  · intro m hm
    unfold blast_lookup
    rw [hm]
  · intro cs m hc hl hs
    simp [blast_lookup, hc, hs, Nat.not_lt.2 hl]
  · intro cs rid m p hc hl hs hw
    simp [blast_lookup, hc, hs, hw, Nat.not_lt.2 hl]
  · intro cs rid p m hc hl hs hw hf
    simp [blast_lookup, hc, hs, hw, hf, Nat.not_lt.2 hl]
  · intro cs rid p body m hc hl hs hw hf hp
    simp [blast_lookup, hc, hs, hw, hf, hp, Nat.not_lt.2 hl]
  · intro rs hb
    unfold blast_lookup at hb
    split at hb
    · simp at hb
    · rename_i cs hc
      split at hb
      · simp at hb
      · rename_i hl
        split at hb
        · simp at hb
        · rename_i rid hs
          split at hb
          · simp at hb
          · rename_i a polls hw
            split at hb
            · simp at hb
            · rename_i body hf
              split at hb
              · simp at hb
              · rename_i rs2 hp
                simp only [BlastOut.ok.injEq] at hb
                subst hb
                cases a
                exact ⟨cs, rid, polls, body, hc, by omega, hs, hw, hf, hp⟩

theorem blast_lookup_error_boundary_witness :
    blast_lookup env0 "!!" = (.err ⟨"Invalid characters in sequence: !"⟩, []) :=
  (blast_lookup_error_boundary env0 "!!").2.1 "Invalid characters in sequence: !" (by decide)

end BlastApp
